import Mathlib

/-!
Verification of the regex-roulette core (`src/regex_roulette.py`) against its
natural-language specification.

The repository is a small regex-testing tool: a fixed ten-record edge-case
catalog (`generate_edge_cases`), and an evaluator (`test_pattern`) that
compiles a user pattern, full-matches it and a per-case reference pattern
against each subject, counts agreements and reports a score.

The regex engine itself (Python `re`) is an external black box (spec section 1,
non-goals: "no regex engine is implemented here").  It is therefore modelled
here from the spec: a regex AST with predicate character classes, a language
semantics `Lang`, a Brzozowski-derivative full matcher `rmatch` (full-match
semantics, spec section 4.2: the entire subject must match, anchored at both
ends), and a total parser `compile` for the dialect fragment the repository
uses (literals, escapes, classes, `.`(not newline), anchors, alternation,
groups, and the quantifiers `*` `+` `?` and brace ranges), returning the
engine diagnostic as a `CompileError` message (spec section 7).

Python floats are modelled as exact rationals, and the process-wide
`random.shuffle` is modelled as an explicit permutation of the case sequence
(spec section 9 prescribes exactly this modelling for verification).
-/

namespace RegexRoulette

open Computability

/-- Modelled from the spec: abstract syntax of compiled patterns of the
external regex engine.  Character classes are predicates, so `.`, `\d`, `\w`,
`\s`, bracket classes and literals are all `pred`. -/
inductive Regex : Type where
  | zero : Regex
  | eps : Regex
  | pred : (Char → Bool) → Regex
  | comp : Regex → Regex → Regex
  | alt : Regex → Regex → Regex
  | star : Regex → Regex

/-- Modelled from the spec: the language denoted by a pattern.  `rmatch`
(full-match) is specified to accept exactly the subjects in this language
(spec glossary: "Full-match: a match verdict requiring the pattern to account
for the entire subject string, anchored at both start and end"). -/
def Lang : Regex → Language Char
  | .zero => 0
  | .eps => 1
  | .pred p => {w | ∃ c, p c = true ∧ w = [c]}
  | .comp r1 r2 => Lang r1 * Lang r2
  | .alt r1 r2 => Lang r1 + Lang r2
  | .star r => (Lang r)∗

/-- Does the pattern accept the empty string? -/
def nullable : Regex → Bool
  | .zero => false
  | .eps => true
  | .pred _ => false
  | .comp r1 r2 => nullable r1 && nullable r2
  | .alt r1 r2 => nullable r1 || nullable r2
  | .star _ => true

/-- Smart alternation constructor (keeps derivatives small). -/
def salt : Regex → Regex → Regex
  | .zero, s => s
  | r, .zero => r
  | r, s => .alt r s

/-- Smart concatenation constructor (keeps derivatives small). -/
def scomp : Regex → Regex → Regex
  | .zero, _ => .zero
  | _, .zero => .zero
  | .eps, s => s
  | r, .eps => r
  | r, s => .comp r s

/-- Brzozowski derivative of a pattern by one character. -/
def deriv : Regex → Char → Regex
  | .zero, _ => .zero
  | .eps, _ => .zero
  | .pred p, c => if p c then .eps else .zero
  | .comp r1 r2, c =>
      if nullable r1 then salt (scomp (deriv r1 c) r2) (deriv r2 c)
      else scomp (deriv r1 c) r2
  | .alt r1 r2, c => salt (deriv r1 c) (deriv r2 c)
  | .star r, c => scomp (deriv r c) (.star r)

/-- Modelled from the spec: `re.fullmatch` — full-string matching, the verdict
used for both `expectedMatch` and `actualMatch` (src lines 53-54). -/
def rmatch (r : Regex) (s : String) : Bool :=
  nullable (s.data.foldl deriv r)

/-! ### The pattern parser (`compile`)

Modelled from the spec: `compile(patternText) -> Result<CompiledPattern,
CompileError>` (spec section 4.2), mirroring Python `re` syntax for the
dialect fragment the repository exercises.  The parser is total; invalid
syntax yields the engine-style diagnostic message. -/

/-- Left brace character (appears in quantifier syntax). -/
def lbrace : Char := Char.ofNat 123

/-- Right brace character (appears in quantifier syntax). -/
def rbrace : Char := Char.ofNat 125

/-- `.` matches any character except a newline (Python default, spec
section 8 scenario 2). -/
def dotPred : Char → Bool := fun c => c != '\n'

/-- `\d`: ASCII decimal digit. -/
def digitPred : Char → Bool := Char.isDigit

/-- `\w`: word character. -/
def wordPred : Char → Bool := fun c => c.isAlphanum || c == '_'

/-- `\s`: whitespace. -/
def spacePred : Char → Bool := fun c =>
  c == ' ' || c == '\t' || c == '\n' || c == '\r' ||
    c == Char.ofNat 11 || c == Char.ofNat 12

/-- Numeric value of a digit string. -/
def digitsToNat (ds : List Char) : Nat :=
  ds.foldl (fun acc c => acc * 10 + (c.toNat - 48)) 0

/-- Parse the body of a brace quantifier after the opening brace: digits,
optional comma and digits, closing brace.  `none` means the brace is not a
valid quantifier and is treated as a literal (Python behaviour). -/
def parseBrace (s : List Char) : Option (Nat × Option Nat × List Char) :=
  let lo := s.takeWhile Char.isDigit
  let rest1 := s.dropWhile Char.isDigit
  match rest1 with
  | ',' :: rest2 =>
      let hi := rest2.takeWhile Char.isDigit
      let rest3 := rest2.dropWhile Char.isDigit
      match rest3 with
      | c :: rest4 =>
          if c == rbrace then
            if lo.isEmpty && hi.isEmpty then none
            else
              some (digitsToNat lo,
                if hi.isEmpty then none else some (digitsToNat hi), rest4)
          else none
      | [] => none
  | c :: rest2 =>
      if c == rbrace then
        if lo.isEmpty then none else some (digitsToNat lo, some (digitsToNat lo), rest2)
      else none
  | [] => none

/-- Resolve an escape sequence to an atom. -/
def escapeAtom (c : Char) : Except String Regex :=
  if c == 'd' then .ok (.pred digitPred)
  else if c == 'D' then .ok (.pred (fun x => !digitPred x))
  else if c == 'w' then .ok (.pred wordPred)
  else if c == 'W' then .ok (.pred (fun x => !wordPred x))
  else if c == 's' then .ok (.pred spacePred)
  else if c == 'S' then .ok (.pred (fun x => !spacePred x))
  else if c == 'n' then .ok (.pred (fun x => x == '\n'))
  else if c == 't' then .ok (.pred (fun x => x == '\t'))
  else if c == 'r' then .ok (.pred (fun x => x == '\r'))
  else if c.isAlphanum then .error "bad escape"
  else .ok (.pred (fun x => x == c))

/-- Items of a bracket character class, up to the closing bracket. -/
def parseClassItems : Nat → List Char → List (Char → Bool) →
    Except String ((Char → Bool) × List Char)
  | 0, _, _ => .error "unterminated character set"
  | _ + 1, [], _ => .error "unterminated character set"
  | fuel + 1, c :: rest, acc =>
    if c == ']' then .ok (fun x => acc.any (fun p => p x), rest)
    else if c == '\\' then
      match rest with
      | [] => .error "bad escape (end of pattern)"
      | e :: rest2 =>
        match escapeAtom e with
        | .error m => .error m
        | .ok (.pred p) => parseClassItems fuel rest2 (p :: acc)
        | .ok _ => .error "bad escape"
    else
      match rest with
      | '-' :: d :: rest2 =>
        if d == ']' then
          parseClassItems fuel (d :: rest2)
            ((fun x => x == c) :: (fun x => x == '-') :: acc)
        else if d < c then .error "bad character range"
        else parseClassItems fuel rest2 ((fun x => c ≤ x && x ≤ d) :: acc)
      | _ => parseClassItems fuel rest ((fun x => x == c) :: acc)

/-- A bracket character class, after the opening bracket: optional negation,
then items (a bracket right at the start is a literal member, as in Python). -/
def parseClass (fuel : Nat) (s : List Char) :
    Except String ((Char → Bool) × List Char) :=
  let (neg, s1) : Bool × List Char :=
    match s with
    | '^' :: rest => (true, rest)
    | _ => (false, s)
  let (acc0, s2) : List (Char → Bool) × List Char :=
    match s1 with
    | ']' :: rest => ([fun x => x == ']'], rest)
    | _ => ([], s1)
  match parseClassItems fuel s2 acc0 with
  | .error m => .error m
  | .ok (p, rest) => .ok ((if neg then fun x => !p x else p), rest)

/-- Pattern repeated exactly `n` times. -/
def powR (r : Regex) : Nat → Regex
  | 0 => .eps
  | n + 1 => .comp r (powR r n)

/-- Pattern repeated at most `n` times. -/
def optR (r : Regex) : Nat → Regex
  | 0 => .eps
  | n + 1 => .comp (.alt r .eps) (optR r n)

/-- Append the pending atom (if any) to the sequence parsed so far. -/
def flush (acc : Regex) (last : Option (Regex × Bool)) : Regex :=
  match last with
  | none => acc
  | some (r, _) => .comp acc r

mutual

/-- Alternation level of the pattern grammar. -/
def parseAlt : Nat → List Char → Except String (Regex × List Char)
  | 0, _ => .error "pattern too complex"
  | fuel + 1, s =>
    match parseCat fuel s .eps none with
    | .error m => .error m
    | .ok (r, rest) =>
      match rest with
      | '|' :: rest2 =>
        match parseAlt fuel rest2 with
        | .error m => .error m
        | .ok (r2, rest3) => .ok (.alt r r2, rest3)
      | _ => .ok (r, rest)

/-- Concatenation level of the pattern grammar.  `acc` is the sequence parsed
so far, `last` the pending atom a quantifier may still apply to (the flag
records that it is already a repeat, for the "multiple repeat" diagnostic).
Under full-match semantics the anchors `^` and `$` are position assertions
that hold by construction (spec section 4.2: "a pattern lacking explicit
anchors is still evaluated as if fully anchored"), so they contribute the
empty word and are not quantifiable. -/
def parseCat : Nat → List Char → Regex → Option (Regex × Bool) →
    Except String (Regex × List Char)
  | 0, _, _, _ => .error "pattern too complex"
  | fuel + 1, s, acc, last =>
    match s with
    | [] => .ok (flush acc last, [])
    | c :: rest =>
      if c == ')' || c == '|' then .ok (flush acc last, s)
      else if c == '(' then
        match parseAlt fuel rest with
        | .error m => .error m
        | .ok (g, rest2) =>
          match rest2 with
          | ')' :: rest3 => parseCat fuel rest3 (flush acc last) (some (g, false))
          | _ => .error "missing ), unterminated subpattern"
      else if c == '*' || c == '+' || c == '?' then
        match last with
        | none => .error "nothing to repeat"
        | some (r, isRep) =>
          if isRep then .error "multiple repeat"
          else
            let r2 : Regex :=
              if c == '*' then .star r
              else if c == '+' then .comp r (.star r)
              else .alt r .eps
            parseCat fuel rest acc (some (r2, true))
      else if c == lbrace then
        match parseBrace rest with
        | none =>
            parseCat fuel rest (flush acc last)
              (some (.pred (fun x => x == lbrace), false))
        | some (lo, hi, rest2) =>
          match last with
          | none => .error "nothing to repeat"
          | some (r, isRep) =>
            if isRep then .error "multiple repeat"
            else
              match hi with
              | none =>
                  parseCat fuel rest2 acc (some (.comp (powR r lo) (.star r), true))
              | some h =>
                if h < lo then .error "min repeat greater than max repeat"
                else
                  parseCat fuel rest2 acc
                    (some (.comp (powR r lo) (optR r (h - lo)), true))
      else if c == '^' || c == '$' then parseCat fuel rest (flush acc last) none
      else if c == '.' then
        parseCat fuel rest (flush acc last) (some (.pred dotPred, false))
      else if c == '\\' then
        match rest with
        | [] => .error "bad escape (end of pattern)"
        | e :: rest2 =>
          match escapeAtom e with
          | .error m => .error m
          | .ok a => parseCat fuel rest2 (flush acc last) (some (a, false))
      else if c == '[' then
        match parseClass fuel rest with
        | .error m => .error m
        | .ok (p, rest2) =>
          parseCat fuel rest2 (flush acc last) (some (.pred p, false))
      else parseCat fuel rest (flush acc last) (some (.pred (fun x => x == c), false))

end

/-- Modelled from the spec: `compile(patternText: string) ->
Result<CompiledPattern, CompileError>` (spec sections 4.2, 6, 7); the source
calls `re.compile` at src line 42 and reports `re.error` diagnostics.  The
error payload is the diagnostic message. -/
def compile (patternText : String) : Except String Regex :=
  match parseAlt (4 * patternText.length + 4) patternText.data with
  | .error m => .error m
  | .ok (r, []) => .ok r
  | .ok (_, _ :: _) => .error "unbalanced parenthesis"

/-- The compiled pattern, defaulting to the empty language when compilation
fails (used only at inputs where `compile` is proved to succeed). -/
def compileD (patternText : String) : Regex :=
  match compile patternText with
  | .ok r => r
  | .error _ => .zero

/-! ### The edge-case catalog and the evaluator -/

/-- The fixed edge-case catalog (src lines 13-31): ten records of
(subject, reference pattern, description). -/
def generate_edge_cases : List (String × String × String) :=
  [ ("hello world", "hello\\s+world", "Basic sanity check (you\x27ll fail this)"),
    ("hello\nworld", "hello.world", ". doesn\x27t match newline (surprise!"),
    ("foo bar baz", "foo.*baz", "Greedy vs non-greedy? Who knows!"),
    ("123-456-7890", "\\d\x7b3\x7d-\\d\x7b3\x7d-\\d\x7b4\x7d",
      "Phone number (works until international)"),
    ("user@example.com", "\\w+@\\w+\\.\\w+", "Email (ignores 99% of real emails)"),
    ("", "^.*$", "Empty string (your regex\x27s existential crisis)"),
    (String.mk (List.replicate 1000 'a'), "a\x7b5,10\x7d",
      "Long strings: where greed goes to die"),
    ("café", "cafe", "Unicode: because bytes have feelings too"),
    ("  spaces  ", "^spaces$", "Whitespace: the silent regex killer"),
    ("price: $19.99", "\\$\\d+", "Special chars escaping (did you remember?)") ]

/-- Per-case outcome (spec section 3, EvaluationResult; src lines 52-57). -/
structure EvaluationResult where
  expectedMatch : Bool
  actualMatch : Bool
  agree : Bool
deriving DecidableEq

/-- One iteration of the evaluation loop (src lines 52-57): full-match the
reference pattern and the user pattern against the subject.  `none` models the
engine exception were a reference pattern invalid (never the case for the
catalog, as proved below). -/
def evaluateCase (compiled : Regex) (c : String × String × String) :
    Option EvaluationResult :=
  match compile c.2.1 with
  | .error _ => none
  | .ok ref =>
    let should_match := rmatch ref c.1
    let actual_match := rmatch compiled c.1
    some { expectedMatch := should_match, actualMatch := actual_match,
           agree := actual_match == should_match }

/-- Did the case pass (src line 56: `actual_match == should_match`)? -/
def agreeOf : Option EvaluationResult → Bool
  | some res => res.agree
  | none => false

/-- Aggregate outcome of one run (spec section 3, RunSummary). -/
structure RunSummary where
  results : List (Option EvaluationResult)
  passedCount : Nat
  totalCount : Nat

/-- Evaluate every case and aggregate (src lines 51-66): `passed` counts the
agreeing cases, the total is the number of cases. -/
def evaluateAll (compiled : Regex) (cases : List (String × String × String)) :
    RunSummary :=
  let results := cases.map (fun c => evaluateCase compiled c)
  { results := results
    passedCount := results.countP agreeOf
    totalCount := cases.length }

/-- `score = passed / len(cases)` (src line 66), with the Python float modelled
as an exact rational. -/
def scoreFraction (s : RunSummary) : ℚ :=
  (s.passedCount : ℚ) / (s.totalCount : ℚ)

/-- Outcome of one round of `test_pattern`: either the compile diagnostic
(src lines 41-46) or a completed run. -/
inductive RunOutcome : Type where
  | compileFailed : String → RunOutcome
  | completed : RunSummary → RunOutcome

/-- The core of `test_pattern` (src lines 33-67): compile the user pattern;
on failure report the diagnostic and stop this round; otherwise evaluate the
catalog.  The presentation-only shuffle (src line 49) is modelled by the
explicit permutation theorems below (spec section 9). -/
def test_pattern (pattern : String) : RunOutcome :=
  match compile pattern with
  | .error e => .compileFailed e
  | .ok compiled => .completed (evaluateAll compiled generate_edge_cases)

/-- The interactive loop of `main` (src lines 84-92): each entered pattern is
one independent round. -/
def session (patterns : List String) : List RunOutcome :=
  patterns.map test_pattern

/-- Did compilation succeed? -/
def isOk : Except String Regex → Bool
  | .ok _ => true
  | .error _ => false

/-! ## Correctness of the matcher

`rmatch r s` decides membership of the whole subject in the language of the
pattern: full-match semantics, anchored at both ends. -/

set_option maxRecDepth 10000

theorem exists_ok {e : Except String Regex} (h : isOk e = true) :
    ∃ r, e = Except.ok r := by
  cases e with
  | ok r => exact ⟨r, rfl⟩
  | error m => exact absurd h (by simp [isOk])

theorem lang_salt (r s : Regex) : Lang (salt r s) = Lang r + Lang s := by
  cases r <;> cases s <;> simp [salt, Lang]

theorem lang_scomp (r s : Regex) : Lang (scomp r s) = Lang r * Lang s := by
  cases r <;> cases s <;> simp [scomp, Lang]

theorem nullable_iff (r : Regex) : nullable r = true ↔ [] ∈ Lang r := by
  induction r with
  | zero => simp [nullable, Lang]
  | eps => simp [nullable, Lang]
  | pred p =>
      constructor
      · intro h
        simp [nullable] at h
      · rintro ⟨d, hd, hcd⟩
        simp at hcd
  | comp r1 r2 ih1 ih2 =>
      simp only [nullable, Bool.and_eq_true, ih1, ih2, Lang, Language.mem_mul]
      constructor
      · rintro ⟨h1, h2⟩
        exact ⟨[], h1, [], h2, rfl⟩
      · rintro ⟨a, ha, b, hb, hab⟩
        rcases List.append_eq_nil.mp hab with ⟨rfl, rfl⟩
        exact ⟨ha, hb⟩
  | alt r1 r2 ih1 ih2 =>
      simp only [nullable, Bool.or_eq_true, ih1, ih2, Lang]
      exact (Language.mem_add _ _ _).symm
  | star r ih => simp [nullable, Lang, Language.nil_mem_kstar]

theorem deriv_iff (r : Regex) (c : Char) : ∀ x : List Char,
    x ∈ Lang (deriv r c) ↔ c :: x ∈ Lang r := by
  induction r with
  | zero => intro x; simp [deriv, Lang]
  | eps => intro x; simp [deriv, Lang]
  | pred p =>
      intro x
      constructor
      · intro hx
        rw [deriv] at hx
        by_cases h : p c
        · rw [if_pos h] at hx
          have hx0 : x = [] := by simpa [Lang] using hx
          subst hx0
          exact ⟨c, h, rfl⟩
        · rw [if_neg h] at hx
          exact absurd hx (by simp [Lang])
      · rintro ⟨d, hd, hcd⟩
        have hdc : d = c := by
          have := congrArg (fun l => l.headI) hcd
          simpa using this.symm
        subst hdc
        have hx0 : x = [] := by
          have := congrArg (fun l => l.tail) hcd
          simpa using this
        subst hx0
        rw [deriv, if_pos hd]
        exact Language.nil_mem_one
  | comp r1 r2 ih1 ih2 =>
      intro x
      rw [deriv]
      by_cases h : nullable r1
      · rw [if_pos h, lang_salt, lang_scomp]
        rw [Language.mem_add, Language.mem_mul]
        constructor
        · rintro (⟨a, ha, b, hb, hab⟩ | hx)
          · subst hab
            exact Language.append_mem_mul ((ih1 a).mp ha) hb
          · have h0 : [] ∈ Lang r1 := (nullable_iff r1).mp h
            have h2 : c :: x ∈ Lang r2 := (ih2 x).mp hx
            exact Language.append_mem_mul h0 h2
        · intro hx
          rcases Language.mem_mul.mp hx with ⟨a, ha, b, hb, hab⟩
          cases a with
          | nil =>
              right
              exact (ih2 x).mpr (by simpa using hab ▸ hb)
          | cons a0 as =>
              left
              have ha0 : a0 = c := by
                have := congrArg (fun l => l.headI) hab
                simpa using this
              subst ha0
              have hx2 : as ++ b = x := by
                have := congrArg (fun l => l.tail) hab
                simpa using this
              exact ⟨as, (ih1 as).mpr ha, b, hb, hx2⟩
      · rw [if_neg h, lang_scomp, Language.mem_mul]
        constructor
        · rintro ⟨a, ha, b, hb, hab⟩
          subst hab
          exact Language.append_mem_mul ((ih1 a).mp ha) hb
        · intro hx
          rcases Language.mem_mul.mp hx with ⟨a, ha, b, hb, hab⟩
          cases a with
          | nil =>
              exact absurd ((nullable_iff r1).mpr ha) (by simpa using h)
          | cons a0 as =>
              have ha0 : a0 = c := by
                have := congrArg (fun l => l.headI) hab
                simpa using this
              subst ha0
              have hx2 : as ++ b = x := by
                have := congrArg (fun l => l.tail) hab
                simpa using this
              exact ⟨as, (ih1 as).mpr ha, b, hb, hx2⟩
  | alt r1 r2 ih1 ih2 =>
      intro x
      rw [deriv, lang_salt, Language.mem_add]
      constructor
      · rintro (h | h)
        · exact (Language.mem_add (Lang r1) (Lang r2) _).mpr (Or.inl ((ih1 x).mp h))
        · exact (Language.mem_add (Lang r1) (Lang r2) _).mpr (Or.inr ((ih2 x).mp h))
      · intro h
        rcases (Language.mem_add (Lang r1) (Lang r2) _).mp h with h | h
        · exact Or.inl ((ih1 x).mpr h)
        · exact Or.inr ((ih2 x).mpr h)
  | star r ih =>
      intro x
      rw [deriv, lang_scomp, Language.mem_mul]
      constructor
      · rintro ⟨a, ha, b, hb, hab⟩
        subst hab
        have ha2 : c :: a ∈ Lang r := (ih a).mp ha
        have hb2 : b ∈ (Lang r)∗ := hb
        rcases Language.mem_kstar.mp hb2 with ⟨L, rfl, hL⟩
        show c :: (a ++ L.flatten) ∈ (Lang r)∗
        have hflat : c :: (a ++ L.flatten) = ((c :: a) :: L).flatten := rfl
        rw [hflat]
        refine Language.join_mem_kstar ?_
        intro y hy
        rcases List.mem_cons.mp hy with rfl | hy2
        · exact ha2
        · exact hL y hy2
      · intro hx
        have hx2 : c :: x ∈ (Lang r)∗ := hx
        rcases Language.mem_kstar_iff_exists_nonempty.mp hx2 with ⟨S, hS, hmem⟩
        cases S with
        | nil => simp at hS
        | cons w S2 =>
            rcases hmem w (List.mem_cons_self w S2) with ⟨hw, hwne⟩
            cases w with
            | nil => exact absurd rfl hwne
            | cons d w2 =>
                have hd : d = c ∧ x = w2 ++ S2.flatten := by
                  have : c :: x = d :: (w2 ++ S2.flatten) := by
                    simpa [List.flatten] using hS
                  exact ⟨(List.cons.injEq _ _ _ _ ▸ this).1.symm,
                    (List.cons.injEq _ _ _ _ ▸ this).2⟩
                obtain ⟨rfl, rfl⟩ := hd
                refine ⟨w2, (ih w2).mpr hw, S2.flatten, ?_, rfl⟩
                exact Language.join_mem_kstar
                  (fun y hy => (hmem y (List.mem_cons_of_mem _ hy)).1)

theorem rmatch_iff_mem (r : Regex) (s : List Char) :
    nullable (s.foldl deriv r) = true ↔ s ∈ Lang r := by
  induction s generalizing r with
  | nil => exact nullable_iff r
  | cons c cs ih =>
      rw [List.foldl_cons, ih (deriv r c)]
      exact deriv_iff r c cs

theorem rmatch_iff (r : Regex) (s : String) :
    rmatch r s = true ↔ s.data ∈ Lang r :=
  rmatch_iff_mem r s.data

theorem evaluateCase_ok {compiled ref : Regex} {c : String × String × String}
    (hc : compile c.2.1 = Except.ok ref) :
    evaluateCase compiled c =
      some { expectedMatch := rmatch ref c.1, actualMatch := rmatch compiled c.1,
             agree := rmatch compiled c.1 == rmatch ref c.1 } := by
  unfold evaluateCase
  rw [hc]

theorem evaluateAll_passedCount (compiled : Regex)
    (cases : List (String × String × String)) :
    (evaluateAll compiled cases).passedCount =
      List.countP agreeOf (cases.map (fun c => evaluateCase compiled c)) := rfl

/-! ## The claims -/

/-- C1: both `expectedMatch` and `actualMatch` use full-string matching
semantics: the verdict is true exactly when the pattern matches the entire
subject string anchored at both ends, so a subject that merely contains a
match as a proper substring (and is not itself in the pattern language)
yields a verdict of false. -/
theorem fullmatch_semantics :
    (∀ (r : Regex) (s : String), rmatch r s = true ↔ s.data ∈ Lang r) ∧
    (∀ (r : Regex) (s : String) (pre mid post : List Char),
      s.data = pre ++ mid ++ post → mid ∈ Lang r → s.data ∉ Lang r →
        rmatch r s = false) ∧
    (∀ (compiled : Regex) (subj refp desc : String) (res : EvaluationResult),
      evaluateCase compiled (subj, refp, desc) = some res →
        (res.actualMatch = true ↔ subj.data ∈ Lang compiled) ∧
        ∀ rr, compile refp = Except.ok rr →
          (res.expectedMatch = true ↔ subj.data ∈ Lang rr)) := by
  refine ⟨fun r s => rmatch_iff r s, ?_, ?_⟩
  · intro r s pre mid post hsplit hmid hnot
    cases hmatch : rmatch r s with
    | false => rfl
    | true => exact absurd ((rmatch_iff r s).mp hmatch) hnot
  · intro compiled subj refp desc res h
    cases hc : compile refp with
    | error m =>
        rw [show evaluateCase compiled (subj, refp, desc) =
              (match compile refp with
               | .error _ => (none : Option EvaluationResult)
               | .ok ref =>
                  some { expectedMatch := rmatch ref subj,
                         actualMatch := rmatch compiled subj,
                         agree := rmatch compiled subj == rmatch ref subj }) from rfl,
            hc] at h
        cases h
    | ok ref =>
        have h2 := (@evaluateCase_ok compiled ref (subj, refp, desc) hc).symm.trans h
        have h3 : res =
            { expectedMatch := rmatch ref subj, actualMatch := rmatch compiled subj,
              agree := rmatch compiled subj == rmatch ref subj } :=
          (Option.some.injEq _ _ ▸ h2).symm
        subst h3
        refine ⟨rmatch_iff compiled subj, ?_⟩
        intro rr hrr
        have h5 : ref = rr := by injection hrr
        subst h5
        exact rmatch_iff ref subj

/-- Witness for C1: the pattern `foo` matches the subject `foo` in full, so
`xfoo` contains a match as a proper substring, yet the full-match verdict on
`xfoo` is false. -/
theorem fullmatch_semantics_witness :
    rmatch (compileD "foo") "xfoo" = false := by
  have h := fullmatch_semantics
  refine h.2.1 (compileD "foo") "xfoo" (['x']) ("foo".data) ([]) (by rfl) ?_ ?_
  · exact (h.1 (compileD "foo") "foo").mp (by rfl)
  · intro hm
    have htrue := (h.1 (compileD "foo") "xfoo").mpr hm
    have hfalse : rmatch (compileD "foo") "xfoo" = false := by decide
    rw [hfalse] at htrue
    cases htrue

/-- C2: `compile` is total — it returns a compiled pattern or a
`CompileError` carrying the engine diagnostic (never a crash); the malformed
pattern `(unclosed` yields a `CompileError`; a compile error terminates only
that single evaluation round (the outcome is `compileFailed` with the same
message, no catalog evaluation happens), and each round of a session is
independent of the preceding ones. -/
theorem compile_error_recoverable :
    compile "(unclosed" = Except.error "missing ), unterminated subpattern" ∧
    (∀ p : String, (∃ r, compile p = Except.ok r) ∨
      (∃ m, compile p = Except.error m)) ∧
    (∀ p m, compile p = Except.error m →
      test_pattern p = RunOutcome.compileFailed m) ∧
    (∀ p rest, session (p :: rest) = test_pattern p :: session rest) := by
  refine ⟨rfl, ?_, ?_, ?_⟩
  · intro p
    cases h : compile p with
    | ok r => exact Or.inl ⟨r, rfl⟩
    | error m => exact Or.inr ⟨m, rfl⟩
  · intro p m h
    unfold test_pattern
    rw [h]
  · intro p rest
    rfl

/-- Witness for C2: the round for `(unclosed` reports exactly the compile
diagnostic, and a session starting with it still evaluates the next round. -/
theorem compile_error_recoverable_witness :
    test_pattern "(unclosed" =
      RunOutcome.compileFailed "missing ), unterminated subpattern" ∧
    session ("(unclosed" :: ["abc"]) =
      test_pattern "(unclosed" :: session ["abc"] :=
  ⟨compile_error_recoverable.2.2.1 "(unclosed" _ compile_error_recoverable.1,
   compile_error_recoverable.2.2.2 "(unclosed" ["abc"]⟩

/-- C3: the catalog is a fixed pure constant: it always is the same ten
records, in the same order, and its construction cannot fail. -/
theorem catalog_fixed :
    generate_edge_cases.length = 10 ∧
    generate_edge_cases =
      [ ("hello world", "hello\\s+world", "Basic sanity check (you\x27ll fail this)"),
        ("hello\nworld", "hello.world", ". doesn\x27t match newline (surprise!"),
        ("foo bar baz", "foo.*baz", "Greedy vs non-greedy? Who knows!"),
        ("123-456-7890", "\\d\x7b3\x7d-\\d\x7b3\x7d-\\d\x7b4\x7d",
          "Phone number (works until international)"),
        ("user@example.com", "\\w+@\\w+\\.\\w+", "Email (ignores 99% of real emails)"),
        ("", "^.*$", "Empty string (your regex\x27s existential crisis)"),
        (String.mk (List.replicate 1000 'a'), "a\x7b5,10\x7d",
          "Long strings: where greed goes to die"),
        ("café", "cafe", "Unicode: because bytes have feelings too"),
        ("  spaces  ", "^spaces$", "Whitespace: the silent regex killer"),
        ("price: $19.99", "\\$\\d+", "Special chars escaping (did you remember?)") ] :=
  ⟨rfl, rfl⟩

/-- C4: over the catalog, the score is exactly `passedCount / totalCount`,
the total is at least 1 (it is 10), and the score lies in [0, 1]. -/
theorem score_exact (compiled : Regex) :
    1 ≤ (evaluateAll compiled generate_edge_cases).totalCount ∧
    (evaluateAll compiled generate_edge_cases).passedCount ≤
      (evaluateAll compiled generate_edge_cases).totalCount ∧
    scoreFraction (evaluateAll compiled generate_edge_cases) =
      ((evaluateAll compiled generate_edge_cases).passedCount : ℚ) /
        ((evaluateAll compiled generate_edge_cases).totalCount : ℚ) ∧
    0 ≤ scoreFraction (evaluateAll compiled generate_edge_cases) ∧
    scoreFraction (evaluateAll compiled generate_edge_cases) ≤ 1 := by
  have htot : (evaluateAll compiled generate_edge_cases).totalCount = 10 := rfl
  have hp : (evaluateAll compiled generate_edge_cases).passedCount ≤ 10 := by
    rw [evaluateAll_passedCount]
    have h1 : List.countP agreeOf
        (generate_edge_cases.map (fun c => evaluateCase compiled c)) ≤
        (generate_edge_cases.map (fun c => evaluateCase compiled c)).length :=
      List.countP_le_length _
    have h2 : (generate_edge_cases.map (fun c => evaluateCase compiled c)).length
        = 10 := rfl
    exact le_trans h1 (le_of_eq h2)
  refine ⟨by rw [htot]; norm_num, by rw [htot]; exact hp, rfl, ?_, ?_⟩
  · unfold scoreFraction
    positivity
  · unfold scoreFraction
    rw [htot]
    rw [div_le_one (by norm_num)]
    exact_mod_cast hp

/-- C5: permuting the catalog before `evaluateAll` changes neither the pass
count, nor the total, nor the score. -/
theorem evaluateAll_order_independent (compiled : Regex)
    (cases2 : List (String × String × String))
    (h : generate_edge_cases.Perm cases2) :
    (evaluateAll compiled cases2).passedCount =
      (evaluateAll compiled generate_edge_cases).passedCount ∧
    (evaluateAll compiled cases2).totalCount =
      (evaluateAll compiled generate_edge_cases).totalCount ∧
    scoreFraction (evaluateAll compiled cases2) =
      scoreFraction (evaluateAll compiled generate_edge_cases) := by
  have hp : (evaluateAll compiled cases2).passedCount =
      (evaluateAll compiled generate_edge_cases).passedCount :=
    List.Perm.countP_eq agreeOf
      (List.Perm.map (fun c => evaluateCase compiled c) h.symm)
  have ht : (evaluateAll compiled cases2).totalCount =
      (evaluateAll compiled generate_edge_cases).totalCount :=
    h.symm.length_eq
  refine ⟨hp, ht, ?_⟩
  unfold scoreFraction
  rw [hp, ht]

/-- Witness for C5: reversing the catalog leaves the pass count unchanged. -/
theorem evaluateAll_order_independent_witness :
    (evaluateAll Regex.eps generate_edge_cases.reverse).passedCount =
      (evaluateAll Regex.eps generate_edge_cases).passedCount :=
  (evaluateAll_order_independent Regex.eps generate_edge_cases.reverse
    (List.reverse_perm generate_edge_cases).symm).1

/-- C6: `evaluateCase` is deterministic: two calls with the same compiled
pattern and the same catalog case yield the same result. -/
theorem evaluateCase_deterministic (compiled : Regex)
    (c : String × String × String) (_hc : c ∈ generate_edge_cases)
    (r1 r2 : Option EvaluationResult)
    (h1 : evaluateCase compiled c = r1) (h2 : evaluateCase compiled c = r2) :
    r1 = r2 :=
  h1.symm.trans h2

/-- Witness for C6: two evaluations of the first catalog case agree. -/
theorem evaluateCase_deterministic_witness :
    evaluateCase Regex.eps
        ("hello world", "hello\\s+world", "Basic sanity check (you\x27ll fail this)") =
      evaluateCase Regex.eps
        ("hello world", "hello\\s+world", "Basic sanity check (you\x27ll fail this)") :=
  evaluateCase_deterministic Regex.eps _
    (by unfold generate_edge_cases; exact List.mem_cons_self _ _) _ _ rfl rfl

/-- C7: the user pattern `a{5,10}` evaluated on the catalog case whose
subject is 1000 copies of `a` gives `expectedMatch = false`,
`actualMatch = false` (1000 repetitions is outside [5,10] under full-match
semantics), hence `agree = true`. -/
theorem long_repetition_case :
    generate_edge_cases[6]? =
      some (String.mk (List.replicate 1000 'a'), "a\x7b5,10\x7d",
        "Long strings: where greed goes to die") ∧
    compile "a\x7b5,10\x7d" = Except.ok (compileD "a\x7b5,10\x7d") ∧
    evaluateCase (compileD "a\x7b5,10\x7d")
        (String.mk (List.replicate 1000 'a'), "a\x7b5,10\x7d",
          "Long strings: where greed goes to die") =
      some { expectedMatch := false, actualMatch := false, agree := true } :=
  ⟨rfl, rfl, by decide⟩

/-- C8: apart from compilation, the core operations are total: every catalog
case evaluates to a result for every compiled pattern (the reference patterns
all compile), and the aggregation always produces all ten results. -/
theorem core_operations_total (compiled : Regex) :
    (∀ c ∈ generate_edge_cases, ∃ res, evaluateCase compiled c = some res) ∧
    (evaluateAll compiled generate_edge_cases).totalCount = 10 ∧
    (evaluateAll compiled generate_edge_cases).results.length = 10 := by
  refine ⟨?_, rfl, rfl⟩
  intro c hc
  have hOk : ∀ c ∈ generate_edge_cases, isOk (compile c.2.1) = true := by decide
  obtain ⟨ref, href⟩ := exists_ok (hOk c hc)
  exact ⟨_, evaluateCase_ok href⟩

/-- Witness for C8: the first catalog case evaluates to a result. -/
theorem core_operations_total_witness :
    ∃ res, evaluateCase Regex.eps
      ("hello world", "hello\\s+world", "Basic sanity check (you\x27ll fail this)") =
        some res :=
  (core_operations_total Regex.eps).1 _
    (by unfold generate_edge_cases; exact List.mem_cons_self _ _)

/-- C9: every reference pattern in the catalog compiles (no `CompileError`). -/
theorem catalog_patterns_compile :
    ∀ c ∈ generate_edge_cases, ∃ r, compile c.2.1 = Except.ok r := by
  intro c hc
  have hOk : ∀ c ∈ generate_edge_cases, isOk (compile c.2.1) = true := by decide
  exact exists_ok (hOk c hc)

/-- Witness for C9: the first catalog reference pattern compiles. -/
theorem catalog_patterns_compile_witness :
    ∃ r, compile "hello\\s+world" = Except.ok r :=
  catalog_patterns_compile
    ("hello world", "hello\\s+world", "Basic sanity check (you\x27ll fail this)")
    (by unfold generate_edge_cases; exact List.mem_cons_self _ _)

/-- C10: on the empty-string catalog case (subject `""`, reference `^.*$`)
the expected verdict is always true, so a user pattern agrees on this case
exactly when its language contains the empty string, i.e. exactly when it
also full-matches the empty subject. -/
theorem empty_string_case (compiled : Regex) :
    generate_edge_cases[5]? =
      some ("", "^.*$", "Empty string (your regex\x27s existential crisis)") ∧
    ∃ res, evaluateCase compiled
        ("", "^.*$", "Empty string (your regex\x27s existential crisis)") = some res ∧
      res.expectedMatch = true ∧
      (res.agree = true ↔ [] ∈ Lang compiled) := by
  refine ⟨rfl, ?_⟩
  have hc : compile "^.*$" = Except.ok (compileD "^.*$") := rfl
  refine ⟨_, evaluateCase_ok hc, rfl, ?_⟩
  show (rmatch compiled "" == rmatch (compileD "^.*$") "") = true ↔ [] ∈ Lang compiled
  have href : rmatch (compileD "^.*$") "" = true := rfl
  rw [href, beq_iff_eq]
  exact rmatch_iff compiled ""

end RegexRoulette
